import Mathlib

/-!
Verification of the fetch-and-transform pipeline of `jira_fetcher.py`.

This file gives a shallow embedding of the script's core functions —
`fetch_all_tickets`, `transform_to_prd_format`, `_extract_text_from_adf`,
`_extract_acceptance_criteria`, and the page-size validation in `main` —
and proves theorems settling the specification claims.

Modelling conventions:
* JSON values are modelled by the inductive `JVal`; numbers as integers
  (no claim involves fractional values).
* Python operations that can raise (attribute access on a wrongly-shaped
  value, `str.split` on a non-string, iterating a non-iterable,
  `' '.join` over non-strings) are modelled in `Except String`.
* `str.lower`, `str.isupper`, `str.isdigit` are modelled at ASCII level
  (`Char.toLower`, `Char.isUpper`, `Char.isDigit`); every claim only
  involves ASCII text.
* `str()` of a composite Python value is modelled by `pyRepr`; inner
  quote escaping of `repr` is not reproduced (no claim depends on it).
-/

/-- JSON-like values: the data the script passes around. -/
inductive JVal where
  | null
  | bool (b : Bool)
  | num (n : Int)
  | str (s : String)
  | arr (xs : List JVal)
  | obj (kvs : List (String × JVal))

/-- First-match association lookup, modelling `dict[...]` access on a
JSON object (JSON objects decoded by Python have unique keys, so
first-match agrees with `dict` semantics). -/
def jLookup : List (String × JVal) → String → Option JVal
  | [], _ => none
  | (k, v) :: rest, key => if k == key then some v else jLookup rest key

/-- Lookup in a string-keyed table, modelling `dict.get(key, default)`
for the priority table. -/
def lookupTable {β : Type} : List (String × β) → String → Option β
  | [], _ => none
  | (k, v) :: rest, key => if k == key then some v else lookupTable rest key

/-- Python truthiness of a JSON value. -/
def truthy : JVal → Bool
  | .null => false
  | .bool b => b
  | .num n => n != 0
  | .str s => !s.isEmpty
  | .arr xs => !xs.isEmpty
  | .obj kvs => !kvs.isEmpty

/-- `d.get(key, default)` where `d` may be any value: on a dict it is a
defaulted lookup, on anything else Python raises `AttributeError`. -/
def pyGet (v : JVal) (key : String) (dflt : JVal) : Except String JVal :=
  match v with
  | .obj kvs => .ok ((jLookup kvs key).getD dflt)
  | _ => .error "AttributeError: get"

/-- Characters stripped by Python `str.strip()` (ASCII whitespace). -/
def isPySpace (c : Char) : Bool :=
  c == ' ' || c == '\t' || c == '\n' || c == '\r' || c == '\x0b' || c == '\x0c'

/-- `str.strip()` on a character list. -/
def pyStrip (l : List Char) : List Char :=
  ((l.dropWhile isPySpace).reverse.dropWhile isPySpace).reverse

/-- `str.lower()` on a character list (ASCII). -/
def pyLower (l : List Char) : List Char :=
  l.map Char.toLower

/-- `str.lower()` on a string (ASCII). -/
def pyLowerStr (s : String) : String :=
  String.mk (pyLower s.data)

/-- `str.split('\n')`: split on newlines, keeping empty pieces. -/
def splitOnNl : List Char → List (List Char)
  | [] => [[]]
  | c :: cs =>
    match splitOnNl cs with
    | [] => [[]]
    | r :: rs => if c == '\n' then [] :: r :: rs else (c :: r) :: rs

/-- `needle in hay`: Python substring containment. -/
def containsSub (needle : List Char) : List Char → Bool
  | [] => needle.isEmpty
  | c :: t => needle.isPrefixOf (c :: t) || containsSub needle t

/-- Comma-join, as in Python `', '.join`. -/
def joinComma : List String → String
  | [] => ""
  | [s] => s
  | s :: rest => s ++ ", " ++ joinComma rest

mutual
/-- Python `repr()` of a JSON value (inner quote escaping not modelled). -/
def pyRepr : JVal → String
  | .null => "None"
  | .bool b => if b then "True" else "False"
  | .num n => toString n
  | .str s => "\x27" ++ s ++ "\x27"
  | .arr xs => "[" ++ joinComma (pyReprList xs) ++ "]"
  | .obj kvs => "\x7b" ++ joinComma (pyReprObj kvs) ++ "\x7d"

def pyReprList : List JVal → List String
  | [] => []
  | x :: xs => pyRepr x :: pyReprList xs

def pyReprObj : List (String × JVal) → List String
  | [] => []
  | (k, v) :: kvs => ("\x27" ++ k ++ "\x27: " ++ pyRepr v) :: pyReprObj kvs
end

/-- Python `str()` of a JSON value. -/
def pyStr : JVal → String
  | .str s => s
  | v => pyRepr v

mutual
/-- Structural size of a JSON value, used as the recursion budget of
the document traversal. -/
def jSize : JVal → Nat
  | .null => 1
  | .bool _ => 1
  | .num _ => 1
  | .str _ => 1
  | .arr xs => 1 + jSizeL xs
  | .obj kvs => 1 + jSizeKV kvs

/-- Structural size of a JSON array body. -/
def jSizeL : List JVal → Nat
  | [] => 1
  | x :: xs => 1 + jSize x + jSizeL xs

/-- Structural size of a JSON object body. -/
def jSizeKV : List (String × JVal) → Nat
  | [] => 1
  | (_, v) :: kvs => 1 + jSize v + jSizeKV kvs
end

/-- Does a part equal the string `'\n'`?  (Python compares
`text_parts[-1] != '\n'`; a non-string part is never equal.) -/
def isNewlinePart : Option JVal → Bool
  | some (.str s) => s == "\n"
  | _ => false

/-- Is the node's `type` field the given string?  (A missing or
non-string `type` never matches.) -/
def tyIs (ty : Option JVal) (s : String) : Bool :=
  match ty with
  | some (.str t) => t == s
  | _ => false

mutual
/-- The recursive `traverse` of `_extract_text_from_adf`, threading the
accumulated `text_parts` list.  On a `text` node the literal `text`
value is appended (default `''`); on a `paragraph`/`heading` node a
`'\n'` separator is appended unless the last part already is one;
children are the `content` list (default `[]`).  Iterating a `content`
that is a dict or string visits only strings (no-ops); iterating a
number, boolean or `None` raises `TypeError`.  The leading `Nat` is a
recursion budget that makes the function structurally recursive;
`adfGo` calls it with budget `jSize v`, and `adfFuel_no_limit` proves
the budget is never exhausted, so the artificial `recursion limit`
branch is unreachable from `adfGo`. -/
def adfGoF : Nat → List JVal → JVal → Except String (List JVal)
  | 0, _, _ => .error "recursion limit"
  | fuel + 1, acc, .obj kvs =>
    let ty := jLookup kvs "type"
    let acc1 :=
      if tyIs ty "text" then acc ++ [(jLookup kvs "text").getD (.str "")]
      else if tyIs ty "paragraph" || tyIs ty "heading" then
        if !acc.isEmpty && !isNewlinePart acc.getLast? then acc ++ [.str "\n"] else acc
      else acc
    (match (jLookup kvs "content").getD (JVal.arr []) with
     | .arr xs => adfListF fuel acc1 xs
     | .obj _ => .ok acc1
     | .str _ => .ok acc1
     | .num _ => .error "TypeError: int is not iterable"
     | .bool _ => .error "TypeError: bool is not iterable"
     | .null => .error "TypeError: NoneType is not iterable")
  | fuel + 1, acc, .arr xs => adfListF fuel acc xs
  | _ + 1, acc, _ => .ok acc

/-- The `for child in content: traverse(child)` loop. -/
def adfListF : Nat → List JVal → List JVal → Except String (List JVal)
  | 0, _, _ => .error "recursion limit"
  | _ + 1, acc, [] => .ok acc
  | fuel + 1, acc, x :: xs =>
    (match adfGoF fuel acc x with
     | .error e => .error e
     | .ok acc2 => adfListF fuel acc2 xs)
end

/-- `traverse(node)` with its always-sufficient recursion budget. -/
def adfGo (acc : List JVal) (v : JVal) : Except String (List JVal) :=
  adfGoF (jSize v) acc v

/-- `' '.join` demands every part be a string, else `TypeError`. -/
def strOfParts : List JVal → Except String (List String)
  | [] => .ok []
  | .str s :: rest =>
    match strOfParts rest with
    | .error e => .error e
    | .ok ss => .ok (s :: ss)
  | _ :: _ => .error "TypeError: sequence item is not str"

/-- Space-join, as in Python `' '.join`. -/
def joinSp : List String → String
  | [] => ""
  | [s] => s
  | s :: rest => s ++ " " ++ joinSp rest

/-- `_extract_text_from_adf`: a non-dict input is rendered with `str()`;
a dict is traversed and the collected parts are space-joined and
stripped. -/
def extract_text_from_adf (adf_doc : JVal) : Except String String :=
  match adf_doc with
  | .obj kvs =>
    match adfGo [] (.obj kvs) with
    | .error e => .error e
    | .ok parts =>
      match strOfParts parts with
      | .error e => .error e
      | .ok ss => .ok (String.mk (pyStrip (joinSp ss).data))
  | v => .ok (pyStr v)

/-- Bullet glyphs stripped from criteria lines:  `'•-*→►▪▸ '`. -/
def bulletChars : List Char := ['•', '-', '*', '→', '►', '▪', '▸', ' ']

/-- Characters of the numeric-list code `'0123456789.)'`. -/
def numListChars : List Char :=
  ['0', '1', '2', '3', '4', '5', '6', '7', '8', '9', '.', ')']

/-- Is the first character upper-case (Python `line[0].isupper()`)? -/
def headIsUpper : List Char → Bool
  | [] => false
  | c :: _ => c.isUpper

/-- Cleaning of a criteria line: strip leading bullet glyphs, then (if
the remainder starts with a digit) strip a leading numeric-list run,
then strip whitespace. -/
def cleanLine (line : List Char) : List Char :=
  let c1 := line.dropWhile (fun c => bulletChars.contains c)
  let c2 :=
    match c1 with
    | c :: _ => if c.isDigit then c1.dropWhile (fun ch => numListChars.contains ch) else c1
    | [] => c1
  pyStrip c2

/-- The line scan of `_extract_acceptance_criteria`: the Boolean is the
`in_criteria_section` state.  A line containing `acceptance criteria`
or `acceptance` (lower-cased) opens the section and is consumed; inside
the section a non-empty line starting upper-case and containing a colon
ends the scan; other non-empty lines are cleaned and emitted. -/
def criteriaLoop : List (List Char) → Bool → List (List Char)
  | [], _ => []
  | l :: rest, inSec =>
    let line := pyStrip l
    let lower := pyLower line
    if containsSub ("acceptance criteria".data) lower || containsSub ("acceptance".data) lower then
      criteriaLoop rest true
    else if inSec && !line.isEmpty && headIsUpper line && containsSub [':'] line then
      []
    else if inSec && !line.isEmpty then
      let cleaned := cleanLine line
      if cleaned.isEmpty then criteriaLoop rest inSec else cleaned :: criteriaLoop rest inSec
    else criteriaLoop rest inSec

/-- `_extract_acceptance_criteria`. -/
def extract_acceptance_criteria (description : String) : List String :=
  (criteriaLoop (splitOnNl description.data) false).map String.mk

/-- The script's priority table. -/
def priority_map : List (String × Nat) :=
  [("highest", 1), ("high", 2), ("medium", 3), ("low", 4), ("lowest", 5)]

/-- `f"{n:03d}"`: decimal, zero-padded to width 3. -/
def pad3 (n : Nat) : String :=
  let s := toString n
  if s.length < 3 then String.mk (List.replicate (3 - s.length) '0') ++ s else s

/--
`priority_name = priority_obj.get('name', 'medium').lower() if priority_obj else 'medium'`
followed by `priority_map.get(priority_name, idx)`.  A truthy non-dict
priority raises on `.get`; a truthy dict with a non-string `name`
raises on `.lower()`. -/
def priorityNum (idx : Nat) (priorityObj : JVal) : Except String Nat :=
  if truthy priorityObj then
    match priorityObj with
    | .obj kvs =>
      match (jLookup kvs "name").getD (.str "medium") with
      | .str s => .ok ((lookupTable priority_map (pyLowerStr s)).getD idx)
      | _ => .error "AttributeError: lower"
    | _ => .error "AttributeError: get"
  else .ok ((lookupTable priority_map "medium").getD idx)

/-- `fields.get('status', {}).get('name', '').lower()`. -/
def statusLower (fields : JVal) : Except String String :=
  match pyGet fields "status" (.obj []) with
  | .error e => .error e
  | .ok st =>
    match pyGet st "name" (.str "") with
    | .error e => .error e
    | .ok nm =>
      match nm with
      | .str s => .ok (pyLowerStr s)
      | _ => .error "AttributeError: lower"

/-- `str.split` only exists on strings; `_extract_acceptance_criteria`
raises on a non-string description. -/
def asStr : JVal → Except String String
  | .str s => .ok s
  | _ => .error "AttributeError: split"

/-- Resolution of the description (lines 134-139): a dict goes through
ADF extraction; a truthy non-dict is used as-is (and must be a string,
since the criteria scan immediately calls `.split` on it); a falsy
value becomes `f"Implement {title}"`. -/
def resolveDescription (title : JVal) (descriptionObj : JVal) : Except String String :=
  match descriptionObj with
  | .obj kvs => extract_text_from_adf (.obj kvs)
  | d => if truthy d then asStr d else .ok ("Implement " ++ pyStr title)

/-- The output user-story record. -/
structure UserStory where
  id : JVal
  title : JVal
  description : String
  acceptanceCriteria : List String
  priority : Nat
  passes : Bool
  notes : String

/-- The loop body of `transform_to_prd_format` for the ticket at
1-based position `idx` (lines 126-169). -/
def transformTicket (idx : Nat) (ticket : JVal) : Except String UserStory :=
  match pyGet ticket "key" (.str ("US-" ++ pad3 idx)) with
  | .error e => .error e
  | .ok key =>
    match pyGet ticket "fields" (.obj []) with
    | .error e => .error e
    | .ok fields =>
      match pyGet fields "summary" (.str "Untitled") with
      | .error e => .error e
      | .ok title =>
        match pyGet fields "description" (.obj []) with
        | .error e => .error e
        | .ok descriptionObj =>
          match resolveDescription title descriptionObj with
          | .error e => .error e
          | .ok description =>
            match pyGet fields "priority" (.obj []) with
            | .error e => .error e
            | .ok priorityObj =>
              match priorityNum idx priorityObj with
              | .error e => .error e
              | .ok priority =>
                match statusLower fields with
                | .error e => .error e
                | .ok status =>
                  .ok { id := key, title := title, description := description,
                        acceptanceCriteria :=
                          (if extract_acceptance_criteria description = [] then
                             ["Implement " ++ pyStr title, "Code passes all tests",
                              "Documentation updated"]
                           else extract_acceptance_criteria description),
                        priority := priority,
                        passes := ["done", "closed", "resolved", "completed"].contains status,
                        notes := "" }

/-- `for idx, ticket in enumerate(tickets, start=1)`. -/
def transformTickets : Nat → List JVal → Except String (List UserStory)
  | _, [] => .ok []
  | idx, t :: ts =>
    match transformTicket idx t with
    | .error e => .error e
    | .ok s =>
      match transformTickets (idx + 1) ts with
      | .error e => .error e
      | .ok rest => .ok (s :: rest)

/-- The output PRD document. -/
structure PRD where
  project : String
  branchName : String
  description : String
  userStories : List UserStory

/-- `project_name.lower().replace(' ', '-')` prefixed by `feature/`. -/
def defaultBranchName (projectName : String) : String :=
  "feature/" ++ String.mk ((pyLower projectName.data).map (fun c => if c == ' ' then '-' else c))

/-- `transform_to_prd_format` (lines 101-179).  `none` models Python
`None` for the optional arguments; `branch_name or ...` treats the
empty string as falsy. -/
def transform_to_prd_format (tickets : List JVal) (projectName : String)
    (branch_name : Option String) (project_description : Option String) :
    Except String PRD :=
  match transformTickets 1 tickets with
  | .error e => .error e
  | .ok stories =>
    .ok { project := projectName,
          branchName :=
            (match branch_name with
             | some b => if b.isEmpty then defaultBranchName projectName else b
             | none => defaultBranchName projectName),
          description :=
            (match project_description with
             | some d => if d.isEmpty then "JIRA tickets for project " ++ projectName else d
             | none => "JIRA tickets for project " ++ projectName),
          userStories := stories }

/-- One page of a search response: the `issues` list and the reported
`total` (missing values default to `[]` and `0` in the source). -/
structure Page where
  issues : List JVal
  total : Nat

/-- Result of a fetch run: the accumulated issues and the number of
page requests issued, or a fatal transport exit. -/
inductive FetchResult where
  | ok (issues : List JVal) (requests : Nat)
  | fatal (exitCode : Nat) (requests : Nat)

/-- The pagination loop of `fetch_all_tickets` (lines 57-96).  `srv`
maps a `startAt` cursor to the server's response for that page; a
`.error` response models a `RequestException` (the script exits with
status 1).  `fuel` bounds the number of iterations so the function is
total; `none` means the fuel ran out (the Python loop would still be
running). -/
def fetch_loop (srv : Nat → Except String Page) :
    Nat → Nat → List JVal → Nat → Option FetchResult
  | 0, _, _, _ => none
  | fuel + 1, startAt, acc, reqs =>
    match srv startAt with
    | .error _ => some (.fatal 1 (reqs + 1))
    | .ok page =>
      if page.issues.isEmpty then some (.ok acc (reqs + 1))
      else
        let acc2 := acc ++ page.issues
        if page.total ≤ startAt + page.issues.length then some (.ok acc2 (reqs + 1))
        else fetch_loop srv fuel (startAt + page.issues.length) acc2 (reqs + 1)

/-- `fetch_all_tickets`: run the pagination loop from cursor 0 with an
empty accumulator. -/
def fetch_all_tickets (srv : Nat → Except String Page) (fuel : Nat) : Option FetchResult :=
  fetch_loop srv fuel 0 [] 0

/-- The canonical honest server over an issue list `L`: it reports
total `L.length` and serves, from any cursor, the next
`min N (remaining)` issues in order. -/
def srvOf (L : List JVal) (N : Nat) : Nat → Except String Page :=
  fun startAt => .ok ⟨(L.drop startAt).take N, L.length⟩

/-- Outcome of a run of `main`, as far as the claims observe it. -/
inductive MainResult where
  | configError (code : Nat)
  | fetchError (code : Nat)
  | uncaughtError
  | noTermination
  | done (prd : PRD)

/-- The control flow of `main` after argument parsing (lines 312-332):
validate `--max-results` before any request, then fetch, then
transform.  The second component counts page requests issued.  `srvFam`
maps a validated page size to a server. -/
def mainModel (srvFam : Nat → Nat → Except String Page) (maxResults : Int)
    (projectName : String) (branch_name : Option String)
    (project_description : Option String) (fuel : Nat) : MainResult × Nat :=
  if maxResults < 1 ∨ maxResults > 100 then (.configError 1, 0)
  else
    match fetch_loop (srvFam maxResults.toNat) fuel 0 [] 0 with
    | none => (.noTermination, 0)
    | some (.fatal code reqs) => (.fetchError code, reqs)
    | some (.ok tickets reqs) =>
      match transform_to_prd_format tickets projectName branch_name project_description with
      | .error _ => (.uncaughtError, reqs)
      | .ok prd => (.done prd, reqs)

/-- Is a traversal part a string?  (`' '.join` succeeds exactly when
all parts are strings.) -/
def isStrPart : JVal → Bool
  | .str _ => true
  | _ => false

/-- The document traversal on `v` succeeds and collects only string
parts (so the final join cannot raise). -/
def adfTextOK (v : JVal) : Bool :=
  match adfGo [] v with
  | .ok parts => parts.all isStrPart
  | .error _ => false

/-- Shapes of a `description` value that the transformer tolerates:
a dict whose traversal joins cleanly, any string, or a falsy value
(which is replaced by `Implement <title>`).  A truthy non-dict
non-string description makes `.split` raise. -/
def descOK : JVal → Bool
  | .obj kvs => adfTextOK (.obj kvs)
  | .str _ => true
  | d => !truthy d

/-- A tolerable `name` entry: absent, or a string (anything else makes
`.lower()` raise). -/
def nameOK : Option JVal → Bool
  | none => true
  | some (.str _) => true
  | some _ => false

/-- The dict shape tolerated for a truthy `priority` value. -/
def prioShape : JVal → Bool
  | .obj kvs => nameOK (jLookup kvs "name")
  | _ => false

/-- Shapes of a `priority` value that the transformer tolerates: any
falsy value, or a dict whose `name` (when present) is a string. -/
def prioOK (p : JVal) : Bool :=
  if truthy p then prioShape p else true

/-- Shapes of a `status` value that the transformer tolerates: it must
be a dict (even `None` raises, since `.get` is called unconditionally)
whose `name` (when present) is a string. -/
def statusOK : JVal → Bool
  | .obj kvs => nameOK (jLookup kvs "name")
  | _ => false

/-- Shapes of a `fields` value that the transformer tolerates. -/
def fieldsOK : JVal → Bool
  | .obj fkvs =>
    descOK ((jLookup fkvs "description").getD (.obj []))
      && prioOK ((jLookup fkvs "priority").getD (.obj []))
      && statusOK ((jLookup fkvs "status").getD (.obj []))
  | _ => false

/-- Well-shaped raw issues: a dict whose `fields` (defaulting to `{}`)
is a dict with tolerable `description`, `priority` and `status`.  Any
field may be absent. -/
def wellShaped : JVal → Bool
  | .obj tkvs => fieldsOK ((jLookup tkvs "fields").getD (.obj []))
  | _ => false

/-- Did an `Except` computation succeed? -/
def exceptIsOk {ε α : Type} : Except ε α → Bool
  | .ok _ => true
  | .error _ => false

/-- The specification's document-extraction example: two paragraph
nodes holding the text nodes `Hello` and `World`. -/
def adfHelloWorld : JVal :=
  .obj [("type", .str "doc"), ("version", .num 1),
        ("content", .arr [
          .obj [("type", .str "paragraph"),
                ("content", .arr [.obj [("type", .str "text"), ("text", .str "Hello")]])],
          .obj [("type", .str "paragraph"),
                ("content", .arr [.obj [("type", .str "text"), ("text", .str "World")]])]])]

/-- Against the honest full-page server over `L`, the pagination loop
started anywhere strictly inside the list returns the accumulator plus
all remaining issues, in `⌈remaining / N⌉` further requests. -/
theorem fetch_loop_srvOf (L : List JVal) (N : Nat) (hN : 1 ≤ N) :
    ∀ (fuel start : Nat) (acc : List JVal) (reqs : Nat),
      start < L.length → L.length - start ≤ fuel →
      fetch_loop (srvOf L N) fuel start acc reqs
        = some (.ok (acc ++ L.drop start) (reqs + (L.length - start + (N - 1)) / N)) := by
  intro fuel
  induction fuel with
  | zero => intro start acc reqs h1 h2; omega
  | succ f ih =>
    intro start acc reqs h1 h2
    have hlen : ((L.drop start).take N).length = min N (L.length - start) := by
      simp [List.length_take, List.length_drop]
    have hne : ((L.drop start).take N) ≠ [] := by
      intro hcontra
      rw [hcontra] at hlen
      simp at hlen
      omega
    have hbe : ((L.drop start).take N).isEmpty = false := by
      simp [List.isEmpty_iff, hne]
    rw [fetch_loop]
    simp only [srvOf, hbe, Bool.false_eq_true, if_false]
    by_cases hc : L.length - start ≤ N
    · have hstop : L.length ≤ start + ((L.drop start).take N).length := by
        rw [hlen]; omega
      rw [if_pos hstop]
      have htake : (L.drop start).take N = L.drop start := by
        apply List.take_of_length_le
        rw [List.length_drop]
        omega
      have hdiv : (L.length - start + (N - 1)) / N = 1 := by
        apply Nat.div_eq_of_lt_le <;> omega
      rw [htake, hdiv]
    · have hgo : ¬ L.length ≤ start + ((L.drop start).take N).length := by
        rw [hlen]; omega
      rw [if_neg hgo]
      have hlen2 : ((L.drop start).take N).length = N := by rw [hlen]; omega
      rw [hlen2]
      rw [ih (start + N) (acc ++ (L.drop start).take N) (reqs + 1) (by omega) (by omega)]
      have happ : (acc ++ (L.drop start).take N) ++ L.drop (start + N) = acc ++ L.drop start := by
        rw [List.append_assoc]
        have : L.drop (start + N) = (L.drop start).drop N := (List.drop_drop N start L).symm
        rw [this, List.take_append_drop]
      have hdiv2 : L.length - start + (N - 1) = (L.length - (start + N) + (N - 1)) + N := by
        omega
      rw [happ, hdiv2, Nat.add_div_right _ (by omega : 0 < N)]
      have harith : reqs + 1 + ((L.length - (start + N) + (N - 1)) / N)
          = reqs + ((L.length - (start + N) + (N - 1)) / N + 1) := by omega
      rw [harith]

/-- Claim C1 (amended).  Against a server reporting fixed total
`T = L.length` and serving maximal pages of at most `N` issues in query
order, `fetch_all_tickets` returns exactly the server's list `L` — so
exactly `T` records, in server order, keys as distinct as the server's —
in exactly `⌈T/N⌉` requests when `T ≥ 1`; when `T = 0` the empty first
page short-circuits after a single probe request.  Moreover (any
server): after a non-final non-empty page the cursor advances by the
number of records actually received, not by `N`. -/
theorem fetch_pagination_completeness :
    ∀ (L : List JVal) (N fuel : Nat), 1 ≤ N → N ≤ 100 →
      (0 < L.length → L.length ≤ fuel →
        fetch_all_tickets (srvOf L N) fuel
          = some (.ok L ((L.length + (N - 1)) / N)))
      ∧ (L.length = 0 → 1 ≤ fuel →
        fetch_all_tickets (srvOf L N) fuel = some (.ok [] 1))
      ∧ (∀ (srv : Nat → Except String Page) (f start : Nat) (acc : List JVal)
            (reqs : Nat) (page : Page),
          srv start = .ok page → page.issues ≠ [] →
          start + page.issues.length < page.total →
          fetch_loop srv (f + 1) start acc reqs
            = fetch_loop srv f (start + page.issues.length) (acc ++ page.issues) (reqs + 1)) := by
  intro L N fuel hN _hN100
  refine ⟨?_, ?_, ?_⟩
  · intro hpos hfuel
    unfold fetch_all_tickets
    rw [fetch_loop_srvOf L N hN fuel 0 [] 0 hpos (by omega)]
    simp
  · intro hzero hfuel
    have hnil : L = [] := List.length_eq_zero.mp hzero
    subst hnil
    unfold fetch_all_tickets
    obtain ⟨f, rfl⟩ : ∃ f, fuel = f + 1 := ⟨fuel - 1, by omega⟩
    rw [fetch_loop]
    simp [srvOf]
  · intro srv f start acc reqs page hsrv hne hmore
    rw [fetch_loop, hsrv]
    have hbe : page.issues.isEmpty = false := by simp [List.isEmpty_iff, hne]
    simp only [hbe, Bool.false_eq_true, if_false]
    rw [if_neg (by omega)]

/-- Witness for C1: three issues served in pages of two are all fetched
in `⌈3/2⌉ = 2` requests. -/
theorem fetch_pagination_completeness_witness :
    fetch_all_tickets (srvOf [JVal.str "a", JVal.str "b", JVal.str "c"] 2) 3
      = some (.ok [JVal.str "a", JVal.str "b", JVal.str "c"] ((3 + (2 - 1)) / 2)) :=
  (fetch_pagination_completeness [JVal.str "a", JVal.str "b", JVal.str "c"] 2 3
    (by decide) (by decide)).1 (by decide) (by decide)

/-- Counterexample to C1 as stated: with total `T = 0` (empty project)
the fetcher still issues one probe request, which is neither `⌈T/N⌉ = 0`
nor fewer. -/
theorem fetch_empty_total_counterexample :
    fetch_all_tickets (srvOf [] 5) 10 = some (.ok [] 1)
      ∧ ((0 : Nat) + (5 - 1)) / 5 < 1 := ⟨rfl, by decide⟩

/-- Claim C7: a page response with zero issues terminates fetching at
that page — one final request, no further ones — returning the records
accumulated so far, regardless of the reported total. -/
theorem fetch_empty_page_terminates :
    ∀ (srv : Nat → Except String Page) (fuel start : Nat) (acc : List JVal)
      (reqs : Nat) (page : Page),
      srv start = .ok page → page.issues = [] →
      fetch_loop srv (fuel + 1) start acc reqs = some (.ok acc (reqs + 1)) := by
  intro srv fuel start acc reqs page hsrv hempty
  rw [fetch_loop, hsrv]
  simp [hempty]

/-- Witness for C7: a server reporting total 42 but serving an empty
page stops after one request, returning the prior accumulator. -/
theorem fetch_empty_page_terminates_witness :
    fetch_loop (fun _ => .ok ⟨[], 42⟩) 1 0 [JVal.null] 0 = some (.ok [JVal.null] 1) :=
  fetch_empty_page_terminates (fun _ => .ok ⟨[], 42⟩) 0 0 [JVal.null] 0 ⟨[], 42⟩ rfl rfl

/-- Claim C9: an out-of-bounds page size makes `main` exit with status 1
before any page request is issued (request counter 0); a page size in
1–100 never produces the configuration error. -/
theorem main_pagesize_validation :
    ∀ (srvFam : Nat → Nat → Except String Page) (maxResults : Int) (pn : String)
      (b d : Option String) (fuel : Nat),
      ((maxResults < 1 ∨ maxResults > 100) →
        mainModel srvFam maxResults pn b d fuel = (.configError 1, 0))
      ∧ (1 ≤ maxResults → maxResults ≤ 100 →
          ∀ code, (mainModel srvFam maxResults pn b d fuel).1 ≠ .configError code) := by
  intro srvFam mr pn b d fuel
  constructor
  · intro h
    simp [mainModel, h]
  · intro h1 h2 code
    have hcond : ¬ (mr < 1 ∨ mr > 100) := by omega
    simp only [mainModel, if_neg hcond]
    cases hf : fetch_loop (srvFam mr.toNat) fuel 0 [] 0 with
    | none => simp
    | some fr =>
      cases fr with
      | fatal c r => simp
      | ok tks r =>
        cases ht : transform_to_prd_format tks pn b d with
        | error e => simp [ht]
        | ok prd => simp [ht]

/-- Witness for C9: page size 0 is rejected with exit 1 and zero
requests; page size 50 does not trigger the configuration error. -/
theorem main_pagesize_validation_witness :
    mainModel (fun _ _ => .ok ⟨[], 0⟩) 0 "P" none none 1 = (.configError 1, 0)
      ∧ (mainModel (fun _ _ => .ok ⟨[], 0⟩) 50 "P" none none 1).1 ≠ .configError 1 :=
  ⟨(main_pagesize_validation (fun _ _ => .ok ⟨[], 0⟩) 0 "P" none none 1).1 (by omega),
   (main_pagesize_validation (fun _ _ => .ok ⟨[], 0⟩) 50 "P" none none 1).2
     (by omega) (by omega) 1⟩

/-- `jSize` is positive. -/
theorem jSize_pos (v : JVal) : 1 ≤ jSize v := by
  cases v <;> simp [jSize]

/-- `jSizeL` is positive. -/
theorem jSizeL_pos (l : List JVal) : 1 ≤ jSizeL l := by
  cases l with
  | nil => simp [jSizeL]
  | cons x xs => simp [jSizeL]; omega

/-- `jSizeKV` is positive. -/
theorem jSizeKV_pos (l : List (String × JVal)) : 1 ≤ jSizeKV l := by
  cases l with
  | nil => simp [jSizeKV]
  | cons p rest => obtain ⟨k, v⟩ := p; simp [jSizeKV]; omega

/-- A value found by `jLookup` is smaller than the object body holding
it. -/
theorem jLookup_jSize (kvs : List (String × JVal)) (k : String) (v : JVal)
    (h : jLookup kvs k = some v) : jSize v < jSizeKV kvs := by
  induction kvs with
  | nil => simp [jLookup] at h
  | cons p rest ih =>
    obtain ⟨pk, pv⟩ := p
    by_cases hk : (pk == k) = true
    · simp [jLookup, hk] at h
      subst h
      simp [jSizeKV]
      omega
    · simp [jLookup, hk] at h
      have := ih h
      simp [jSizeKV]
      omega

/-- The recursion budget `jSize v` given by `adfGo` is always
sufficient: the artificial `recursion limit` branch of the fuelled
traversal is unreachable. -/
theorem adfFuel_no_limit :
    ∀ n : Nat,
      (∀ (v : JVal) (acc : List JVal) (f : Nat), jSize v = n → n ≤ f →
        adfGoF f acc v ≠ .error "recursion limit")
      ∧ (∀ (xs : List JVal) (acc : List JVal) (f : Nat), jSizeL xs = n → n ≤ f →
        adfListF f acc xs ≠ .error "recursion limit") := by
  intro n
  induction n using Nat.strong_induction_on with
  | _ n ih =>
    constructor
    · intro v acc f hsz hf
      have hpos : 1 ≤ jSize v := jSize_pos v
      obtain ⟨g, rfl⟩ : ∃ g, f = g + 1 := ⟨f - 1, by omega⟩
      cases v with
      | null => simp [adfGoF]
      | bool b => simp [adfGoF]
      | num k => simp [adfGoF]
      | str s => simp [adfGoF]
      | arr xs =>
        simp only [adfGoF]
        have hlt : jSizeL xs < n := by simp [jSize] at hsz; omega
        exact (ih _ hlt).2 xs acc g rfl (by omega)
      | obj kvs =>
        simp only [adfGoF]
        have hkv : 1 ≤ jSizeKV kvs := jSizeKV_pos kvs
        have hn : n = 1 + jSizeKV kvs := by simp [jSize] at hsz; omega
        rcases hc : (jLookup kvs "content").getD (JVal.arr []) with _ | b | k | s | xs | okvs
        · simp
        · simp
        · simp
        · simp
        · have hlt : jSizeL xs < n := by
            rcases hl : jLookup kvs "content" with _ | c
            · rw [hl] at hc
              simp at hc
              subst hc
              simp [jSizeL]
              omega
            · rw [hl] at hc
              simp at hc
              subst hc
              have := jLookup_jSize kvs "content" (JVal.arr xs) hl
              simp [jSize] at this
              omega
          exact (ih _ hlt).2 xs _ g rfl (by omega)
        · simp
    · intro xs acc f hsz hf
      have hpos : 1 ≤ jSizeL xs := jSizeL_pos xs
      obtain ⟨g, rfl⟩ : ∃ g, f = g + 1 := ⟨f - 1, by omega⟩
      cases xs with
      | nil => simp [adfListF]
      | cons x rest =>
        simp only [adfListF]
        have hx : jSize x < n := by simp [jSizeL] at hsz; omega
        have hrest : jSizeL rest < n := by
          have := jSize_pos x
          simp [jSizeL] at hsz
          omega
        cases hg : adfGoF g acc x with
        | error e =>
          have hne := (ih _ hx).1 x acc g rfl (by omega)
          rw [hg] at hne
          simpa using hne
        | ok acc2 => exact (ih _ hrest).2 rest acc2 g rfl (by omega)

/-- Inversion of a successful `transformTicket`: every intermediate
field access succeeded, and the story is assembled exactly from the
intermediate values. -/
theorem transformTicket_inv (idx : Nat) (t : JVal) (story : UserStory)
    (h : transformTicket idx t = .ok story) :
    ∃ key fields title descriptionObj description priorityObj priority status,
      pyGet t "key" (.str ("US-" ++ pad3 idx)) = .ok key ∧
      pyGet t "fields" (.obj []) = .ok fields ∧
      pyGet fields "summary" (.str "Untitled") = .ok title ∧
      pyGet fields "description" (.obj []) = .ok descriptionObj ∧
      resolveDescription title descriptionObj = .ok description ∧
      pyGet fields "priority" (.obj []) = .ok priorityObj ∧
      priorityNum idx priorityObj = .ok priority ∧
      statusLower fields = .ok status ∧
      story = { id := key, title := title, description := description,
                acceptanceCriteria :=
                  (if extract_acceptance_criteria description = [] then
                     ["Implement " ++ pyStr title, "Code passes all tests",
                      "Documentation updated"]
                   else extract_acceptance_criteria description),
                priority := priority,
                passes := ["done", "closed", "resolved", "completed"].contains status,
                notes := "" } := by
  unfold transformTicket at h
  split at h
  · exact absurd h (by simp)
  rename_i key hkey
  split at h
  · exact absurd h (by simp)
  rename_i fields hfields
  split at h
  · exact absurd h (by simp)
  rename_i title htitle
  split at h
  · exact absurd h (by simp)
  rename_i descriptionObj hdobj
  split at h
  · exact absurd h (by simp)
  rename_i description hdesc
  split at h
  · exact absurd h (by simp)
  rename_i priorityObj hpobj
  split at h
  · exact absurd h (by simp)
  rename_i priority hprio
  split at h
  · exact absurd h (by simp)
  rename_i status hstatus
  injection h with h2
  subst h2
  exact ⟨key, fields, title, descriptionObj, description, priorityObj, priority, status,
    hkey, hfields, htitle, hdobj, hdesc, hpobj, hprio, hstatus, rfl⟩

/-- A successful `transformTickets` runs `transformTicket` on every
position, with 1-based indices offset by the starting index. -/
theorem transformTickets_get :
    ∀ (ts : List JVal) (start : Nat) (stories : List UserStory),
      transformTickets start ts = .ok stories →
      stories.length = ts.length ∧
      ∀ (j : Nat) (h1 : j < ts.length) (h2 : j < stories.length),
        transformTicket (start + j) (ts.get ⟨j, h1⟩) = .ok (stories.get ⟨j, h2⟩) := by
  intro ts
  induction ts with
  | nil =>
    intro start stories h
    simp [transformTickets] at h
    subst h
    exact ⟨rfl, by intro j h1 h2; exact absurd h1 (by simp)⟩
  | cons t rest ih =>
    intro start stories h
    unfold transformTickets at h
    split at h
    · exact absurd h (by simp)
    rename_i s hs
    split at h
    · exact absurd h (by simp)
    rename_i srest hsrest
    injection h with h2
    subst h2
    obtain ⟨hlen, hget⟩ := ih (start + 1) srest hsrest
    constructor
    · simp [hlen]
    · intro j h1 h2
      cases j with
      | zero => simpa using hs
      | succ j0 =>
        have := hget j0 (by simpa using h1) (by simpa using h2)
        simpa [Nat.add_assoc, Nat.add_comm 1 j0] using this

/-- Every story produced by `transformTickets` comes from
`transformTicket` on some ticket. -/
theorem transformTickets_mem :
    ∀ (ts : List JVal) (start : Nat) (stories : List UserStory),
      transformTickets start ts = .ok stories →
      ∀ story ∈ stories, ∃ idx t, transformTicket idx t = .ok story := by
  intro ts
  induction ts with
  | nil =>
    intro start stories h
    simp [transformTickets] at h
    subst h
    intro story hmem
    exact absurd hmem (by simp)
  | cons t rest ih =>
    intro start stories h
    unfold transformTickets at h
    split at h
    · exact absurd h (by simp)
    rename_i s hs
    split at h
    · exact absurd h (by simp)
    rename_i srest hsrest
    injection h with h2
    subst h2
    intro story hmem
    rcases List.mem_cons.mp hmem with heq | htail
    · exact ⟨start, t, heq ▸ hs⟩
    · exact ih (start + 1) srest hsrest story htail

/-- A successful `transform_to_prd_format` wraps a successful
`transformTickets` run started at index 1. -/
theorem transform_to_prd_format_inv (tickets : List JVal) (pn : String)
    (b d : Option String) (prd : PRD)
    (h : transform_to_prd_format tickets pn b d = .ok prd) :
    transformTickets 1 tickets = .ok prd.userStories := by
  unfold transform_to_prd_format at h
  split at h
  · exact absurd h (by simp)
  rename_i stories hstories
  injection h with h2
  subst h2
  exact hstories

/-- Claim C10: when the raw issue carries a `key` field — whatever its
value, including `null` or the empty string — the story's `id` is that
value verbatim; the placeholder `US-<i>` (1-based index, zero-padded to
3 digits) is used only when `key` is entirely absent. -/
theorem story_id_verbatim :
    ∀ (idx : Nat) (t : JVal) (story : UserStory) (tkvs : List (String × JVal)),
      transformTicket idx t = .ok story → t = .obj tkvs →
      (∀ v, jLookup tkvs "key" = some v → story.id = v)
      ∧ (jLookup tkvs "key" = none → story.id = .str ("US-" ++ pad3 idx)) := by
  intro idx t story tkvs h ht
  subst ht
  obtain ⟨key, fields, title, dobj, desc, pobj, prio, status,
    hkey, _, _, _, _, _, _, _, hstory⟩ := transformTicket_inv idx _ story h
  subst hstory
  simp only [pyGet] at hkey
  injection hkey with hkey
  constructor
  · intro v hv
    rw [hv] at hkey
    simp at hkey
    exact hkey.symm
  · intro hv
    rw [hv] at hkey
    simp at hkey
    exact hkey.symm

/-- Witness for C10: a ticket with `key: null` yields a story whose id
is `null`. -/
theorem story_id_verbatim_witness :
    (transformTicket 1 (JVal.obj [("key", JVal.null),
        ("fields", JVal.obj [("description", JVal.str "Implement stuff")])])).map
      UserStory.id = .ok JVal.null := by
  have h := (story_id_verbatim 1
      (JVal.obj [("key", JVal.null),
        ("fields", JVal.obj [("description", JVal.str "Implement stuff")])])
      { id := JVal.null, title := JVal.str "Untitled", description := "Implement stuff",
        acceptanceCriteria := ["Implement Untitled", "Code passes all tests",
          "Documentation updated"],
        priority := 3, passes := false, notes := "" }
      [("key", JVal.null),
        ("fields", JVal.obj [("description", JVal.str "Implement stuff")])]
      rfl rfl).1 JVal.null rfl
  have htr : transformTicket 1 (JVal.obj [("key", JVal.null),
      ("fields", JVal.obj [("description", JVal.str "Implement stuff")])])
      = .ok { id := JVal.null, title := JVal.str "Untitled",
              description := "Implement stuff",
              acceptanceCriteria := ["Implement Untitled", "Code passes all tests",
                "Documentation updated"],
              priority := 3, passes := false, notes := "" } := rfl
  rw [htr]
  exact congrArg Except.ok h

/-- Claim C8: every produced story has a non-empty acceptance-criteria
list: the extraction result when it is non-empty, else the fixed 3-item
default with the story's title substituted into the first entry. -/
theorem acceptance_criteria_nonempty :
    ∀ (tickets : List JVal) (pn : String) (b d : Option String) (prd : PRD),
      transform_to_prd_format tickets pn b d = .ok prd →
      ∀ story ∈ prd.userStories,
        story.acceptanceCriteria ≠ []
        ∧ story.acceptanceCriteria =
            (if extract_acceptance_criteria story.description = [] then
               ["Implement " ++ pyStr story.title, "Code passes all tests",
                "Documentation updated"]
             else extract_acceptance_criteria story.description) := by
  intro tickets pn b d prd h story hmem
  have hstories := transform_to_prd_format_inv tickets pn b d prd h
  obtain ⟨idx, t, ht⟩ := transformTickets_mem tickets 1 prd.userStories hstories story hmem
  obtain ⟨key, fields, title, dobj, desc, pobj, prio, status,
    _, _, _, _, _, _, _, _, hstory⟩ := transformTicket_inv idx t story ht
  subst hstory
  by_cases he : extract_acceptance_criteria desc = []
  · simp [he]
  · simp [he]

/-- Witness for C8: a ticket whose description carries one criteria
item produces exactly that item, a non-empty list. -/
theorem acceptance_criteria_nonempty_witness :
    (["item one"] : List String) ≠ []
    ∧ (["item one"] : List String) =
        (if extract_acceptance_criteria "Acceptance criteria:\n- item one" = [] then
           ["Implement " ++ pyStr (JVal.str "Untitled"), "Code passes all tests",
            "Documentation updated"]
         else extract_acceptance_criteria "Acceptance criteria:\n- item one") := by
  have h := acceptance_criteria_nonempty
    [JVal.obj [("fields",
      JVal.obj [("description", JVal.str "Acceptance criteria:\n- item one")])]]
    "My App" none none
    { project := "My App", branchName := "feature/my-app",
      description := "JIRA tickets for project My App",
      userStories :=
        [{ id := JVal.str "US-001", title := JVal.str "Untitled",
           description := "Acceptance criteria:\n- item one",
           acceptanceCriteria := ["item one"], priority := 3, passes := false,
           notes := "" }] }
    rfl
    { id := JVal.str "US-001", title := JVal.str "Untitled",
      description := "Acceptance criteria:\n- item one",
      acceptanceCriteria := ["item one"], priority := 3, passes := false, notes := "" }
    (by simp)
  simpa using h

/-- Claim C4 (amended): a recognized priority label, lower-cased, maps
through the fixed table; an unrecognized *present* string label falls
back to the record's 1-based index; an absent or falsy priority, or a
priority object without a `name`, defaults to the label `medium` and
hence priority 3 (not the index).  The story's priority field is
exactly the value computed this way from the raw `priority` entry. -/
theorem priority_mapping_amended :
    (∀ (idx : Nat) (s : String) (n : Nat),
        lookupTable priority_map (pyLowerStr s) = some n →
        priorityNum idx (.obj [("name", .str s)]) = .ok n)
    ∧ (∀ (idx : Nat) (s : String),
        lookupTable priority_map (pyLowerStr s) = none →
        priorityNum idx (.obj [("name", .str s)]) = .ok idx)
    ∧ (∀ idx : Nat, priorityNum idx (.obj []) = .ok 3)
    ∧ (∀ (idx : Nat) (kvs : List (String × JVal)), jLookup kvs "name" = none →
        priorityNum idx (.obj kvs) = .ok 3)
    ∧ (∀ (idx : Nat) (t : JVal) (story : UserStory)
          (tkvs fkvs : List (String × JVal)),
        transformTicket idx t = .ok story → t = .obj tkvs →
        (jLookup tkvs "fields").getD (.obj []) = .obj fkvs →
        priorityNum idx ((jLookup fkvs "priority").getD (.obj [])) = .ok story.priority)
    ∧ (∀ (tickets : List JVal) (pn : String) (b d : Option String) (prd : PRD)
          (j : Nat) (h1 : j < tickets.length) (h2 : j < prd.userStories.length),
        transform_to_prd_format tickets pn b d = .ok prd →
        transformTicket (1 + j) (tickets.get ⟨j, h1⟩)
          = .ok (prd.userStories.get ⟨j, h2⟩)) := by
  refine ⟨?_, ?_, ?_, ?_, ?_, ?_⟩
  · intro idx s n h
    unfold priorityNum
    rw [if_pos (by simp [truthy])]
    simp [jLookup, h]
  · intro idx s h
    unfold priorityNum
    rw [if_pos (by simp [truthy])]
    simp [jLookup, h]
  · intro idx
    rfl
  · intro idx kvs h
    unfold priorityNum
    by_cases ht : truthy (JVal.obj kvs) = true
    · rw [if_pos ht]
      simp only [h]
      rfl
    · rw [if_neg ht]
      rfl
  · intro idx t story tkvs fkvs h ht hf
    subst ht
    obtain ⟨key, fields, title, dobj, desc, pobj, prio, status,
      _, hfields, _, _, _, hpobj, hprio, _, hstory⟩ := transformTicket_inv idx _ story h
    simp only [pyGet] at hfields
    injection hfields with hfields
    rw [hf] at hfields
    subst hfields
    simp only [pyGet] at hpobj
    injection hpobj with hpobj
    subst hpobj
    subst hstory
    exact hprio
  · intro tickets pn b d prd j h1 h2 h
    have hstories := transform_to_prd_format_inv tickets pn b d prd h
    exact (transformTickets_get tickets 1 prd.userStories hstories).2 j h1 h2

/-- Counterexample to C4 as stated: a ticket with *no* priority field
at 1-based position 7 gets priority 3 (the `medium` default), not 7. -/
theorem priority_absent_counterexample :
    transformTicket 7 (JVal.obj [("fields",
        JVal.obj [("description", JVal.str "d")])])
      = .ok { id := JVal.str "US-007", title := JVal.str "Untitled",
              description := "d",
              acceptanceCriteria := ["Implement Untitled", "Code passes all tests",
                "Documentation updated"],
              priority := 3, passes := false, notes := "" }
    ∧ (3 : Nat) ≠ 7 := ⟨rfl, by decide⟩

/-- Witness for C4: `Highest` maps to 1 at any index, the unrecognized
label `urgent` at position 7 maps to 7, and an empty priority object
maps to 3. -/
theorem priority_mapping_amended_witness :
    priorityNum 9 (.obj [("name", JVal.str "Highest")]) = .ok 1
    ∧ priorityNum 7 (.obj [("name", JVal.str "urgent")]) = .ok 7
    ∧ priorityNum 4 (.obj []) = .ok 3 :=
  ⟨priority_mapping_amended.1 9 "Highest" 1 rfl,
   priority_mapping_amended.2.1 7 "urgent" rfl,
   priority_mapping_amended.2.2.1 4⟩

/-- Claim C2: the specification's criteria-extraction example — the
bullet and the numbered item are cleaned and emitted, the `Notes:`
line terminates the section and is not emitted. -/
theorem criteria_extraction_example :
    extract_acceptance_criteria
        "Some intro.\nAcceptance Criteria:\n- Do the thing\n2) Do another thing\nNotes: ignore this"
      = ["Do the thing", "Do another thing"] := by decide

/-- Counterexample to C3 as stated: the example document extracts to
`Hello \n World` (the paragraph separator token survives the
space-joining), not to `Hello World`. -/
theorem adf_example_counterexample :
    extract_text_from_adf adfHelloWorld = .ok "Hello \n World"
    ∧ "Hello \n World" ≠ "Hello World" := ⟨rfl, by decide⟩

/-- Claim C3 (amended): the two-paragraph `Hello` / `World` document
extracts to the string `Hello`, space, newline, space, `World` — the
second paragraph's newline separator is joined with spaces on both
sides, and the final strip removes nothing because the whitespace is
interior. -/
theorem adf_example_extraction :
    extract_text_from_adf adfHelloWorld = .ok "Hello \n World" := rfl

/-- Claim C6 (amended): a line containing `acceptance` (lower-cased)
that is met while the criteria section is already open keeps the
section open but is consumed exactly like a header — skipped, not
emitted. -/
theorem criteria_marker_line_consumed :
    ∀ (l : List Char) (rest : List (List Char)) (inSec : Bool),
      containsSub ("acceptance".data) (pyLower (pyStrip l)) = true →
      criteriaLoop (l :: rest) inSec = criteriaLoop rest true := by
  intro l rest inSec h
  conv_lhs => rw [criteriaLoop]
  simp [h]

/-- Counterexample to C6 as stated: inside an open section the content
line `must handle acceptance of terms` is *not* emitted as a criterion
(it is consumed as a header because it contains `acceptance`); only
the following line survives. -/
theorem criteria_marker_emitted_counterexample :
    extract_acceptance_criteria
        "Acceptance Criteria:\nmust handle acceptance of terms\nsecond item"
      = ["second item"]
    ∧ "must handle acceptance of terms" ∉
        extract_acceptance_criteria
          "Acceptance Criteria:\nmust handle acceptance of terms\nsecond item" :=
  ⟨by decide, by decide⟩

/-- Witness for C6: a concrete marker-containing line inside an open
section is skipped. -/
theorem criteria_marker_line_consumed_witness :
    criteriaLoop ("- includes acceptance".data :: ["ok item".data]) true
      = criteriaLoop ["ok item".data] true :=
  criteria_marker_line_consumed "- includes acceptance".data ["ok item".data] true
    (by decide)

/-- If every collected part is a string, the join step succeeds. -/
theorem strOfParts_all (parts : List JVal)
    (h : ∀ p ∈ parts, isStrPart p = true) :
    ∃ ss, strOfParts parts = .ok ss := by
  induction parts with
  | nil => exact ⟨[], rfl⟩
  | cons p rest ih =>
    obtain ⟨ss, hss⟩ := ih (fun q hq => h q (List.mem_cons_of_mem p hq))
    have hp := h p (List.mem_cons_self p rest)
    cases p with
    | str s => exact ⟨s :: ss, by simp [strOfParts, hss]⟩
    | null => simp [isStrPart] at hp
    | bool b => simp [isStrPart] at hp
    | num k => simp [isStrPart] at hp
    | arr xs => simp [isStrPart] at hp
    | obj kvs => simp [isStrPart] at hp

/-- A dict description whose traversal collects only strings extracts
successfully. -/
theorem extract_adf_ok (kvs : List (String × JVal))
    (h : adfTextOK (.obj kvs) = true) :
    ∃ s, extract_text_from_adf (.obj kvs) = .ok s := by
  unfold adfTextOK at h
  cases hg : adfGo [] (JVal.obj kvs) with
  | error e => rw [hg] at h; simp at h
  | ok parts =>
    rw [hg] at h
    simp at h
    obtain ⟨ss, hss⟩ := strOfParts_all parts h
    exact ⟨String.mk (pyStrip (joinSp ss).data),
      by simp [extract_text_from_adf, hg, hss]⟩

/-- Reduction of `resolveDescription` on a plain string. -/
theorem resolveDescription_str (title : JVal) (s : String) :
    resolveDescription title (.str s)
      = if truthy (.str s) = true then asStr (.str s)
        else .ok ("Implement " ++ pyStr title) := rfl

/-- A tolerable description value resolves without raising. -/
theorem resolveDescription_ok (d : JVal) (hd : descOK d = true) (title : JVal) :
    ∃ s, resolveDescription title d = .ok s := by
  cases d with
  | obj kvs =>
    obtain ⟨s, hs⟩ := extract_adf_ok kvs (by simpa [descOK] using hd)
    exact ⟨s, hs⟩
  | str s =>
    by_cases ht : truthy (JVal.str s) = true
    · exact ⟨s, by rw [resolveDescription_str, if_pos ht]; rfl⟩
    · exact ⟨"Implement " ++ pyStr title, by rw [resolveDescription_str, if_neg ht]⟩
  | null => exact ⟨"Implement " ++ pyStr title, rfl⟩
  | bool b =>
    simp [descOK, truthy] at hd
    subst hd
    exact ⟨"Implement " ++ pyStr title, rfl⟩
  | num k =>
    simp [descOK, truthy] at hd
    subst hd
    exact ⟨"Implement " ++ pyStr title, rfl⟩
  | arr xs =>
    simp [descOK, truthy] at hd
    subst hd
    exact ⟨"Implement " ++ pyStr title, rfl⟩

/-- Reduction of `priorityNum` on a dict. -/
theorem priorityNum_obj (idx : Nat) (kvs : List (String × JVal)) :
    priorityNum idx (.obj kvs)
      = if truthy (.obj kvs) = true then
          (match (jLookup kvs "name").getD (JVal.str "medium") with
           | .str s => Except.ok ((lookupTable priority_map (pyLowerStr s)).getD idx)
           | _ => Except.error "AttributeError: lower")
        else Except.ok ((lookupTable priority_map "medium").getD idx) := rfl

/-- A tolerable priority value is mapped without raising. -/
theorem priorityNum_ok (idx : Nat) (p : JVal) (hp : prioOK p = true) :
    ∃ n, priorityNum idx p = .ok n := by
  unfold prioOK at hp
  by_cases ht : truthy p = true
  · rw [if_pos ht] at hp
    cases p with
    | obj kvs =>
      rw [priorityNum_obj, if_pos ht]
      simp only [prioShape] at hp
      cases hn : jLookup kvs "name" with
      | none => exact ⟨3, rfl⟩
      | some v =>
        cases v with
        | str s => exact ⟨_, rfl⟩
        | null => exact Bool.noConfusion (hn ▸ hp)
        | bool b => exact Bool.noConfusion (hn ▸ hp)
        | num k => exact Bool.noConfusion (hn ▸ hp)
        | arr xs => exact Bool.noConfusion (hn ▸ hp)
        | obj okvs => exact Bool.noConfusion (hn ▸ hp)
    | null => simp [prioShape] at hp
    | bool b => simp [prioShape] at hp
    | num k => simp [prioShape] at hp
    | str s => simp [prioShape] at hp
    | arr xs => simp [prioShape] at hp
  · unfold priorityNum
    rw [if_neg ht]
    exact ⟨_, rfl⟩

/-- Reduction of `statusLower` on a dict. -/
theorem statusLower_obj (fkvs : List (String × JVal)) :
    statusLower (.obj fkvs)
      = (match pyGet ((jLookup fkvs "status").getD (.obj [])) "name" (.str "") with
         | .error e => .error e
         | .ok nm =>
           (match nm with
            | .str s => .ok (pyLowerStr s)
            | _ => .error "AttributeError: lower")) := rfl

/-- A tolerable status entry is lower-cased without raising. -/
theorem statusLower_ok (fkvs : List (String × JVal))
    (hs : statusOK ((jLookup fkvs "status").getD (.obj [])) = true) :
    ∃ s, statusLower (.obj fkvs) = .ok s := by
  rw [statusLower_obj]
  cases hst : (jLookup fkvs "status").getD (JVal.obj []) with
  | obj skvs =>
    rw [hst] at hs
    simp only [statusOK] at hs
    simp only [pyGet]
    cases hn : jLookup skvs "name" with
    | none => exact ⟨pyLowerStr "", rfl⟩
    | some v =>
      cases v with
      | str s => exact ⟨pyLowerStr s, rfl⟩
      | null => exact Bool.noConfusion (hn ▸ hs)
      | bool b => exact Bool.noConfusion (hn ▸ hs)
      | num k => exact Bool.noConfusion (hn ▸ hs)
      | arr xs => exact Bool.noConfusion (hn ▸ hs)
      | obj okvs => exact Bool.noConfusion (hn ▸ hs)
  | null => rw [hst] at hs; simp [statusOK] at hs
  | bool b => rw [hst] at hs; simp [statusOK] at hs
  | num k => rw [hst] at hs; simp [statusOK] at hs
  | str s => rw [hst] at hs; simp [statusOK] at hs
  | arr xs => rw [hst] at hs; simp [statusOK] at hs

/-- A well-shaped ticket is transformed without raising. -/
theorem transformTicket_wellShaped (idx : Nat) (t : JVal)
    (hw : wellShaped t = true) :
    ∃ story, transformTicket idx t = .ok story := by
  cases t with
  | null => simp [wellShaped] at hw
  | bool b => simp [wellShaped] at hw
  | num k => simp [wellShaped] at hw
  | str s => simp [wellShaped] at hw
  | arr xs => simp [wellShaped] at hw
  | obj tkvs =>
    simp only [wellShaped] at hw
    cases hf : (jLookup tkvs "fields").getD (JVal.obj []) with
    | null => rw [hf] at hw; simp [fieldsOK] at hw
    | bool b => rw [hf] at hw; simp [fieldsOK] at hw
    | num k => rw [hf] at hw; simp [fieldsOK] at hw
    | str s => rw [hf] at hw; simp [fieldsOK] at hw
    | arr xs => rw [hf] at hw; simp [fieldsOK] at hw
    | obj fkvs =>
      rw [hf] at hw
      unfold fieldsOK at hw
      rw [Bool.and_eq_true, Bool.and_eq_true] at hw
      obtain ⟨⟨hdesc, hprio⟩, hstat⟩ := hw
      obtain ⟨ds, hds⟩ := resolveDescription_ok
        ((jLookup fkvs "description").getD (.obj [])) hdesc
        ((jLookup fkvs "summary").getD (.str "Untitled"))
      obtain ⟨pn, hpn⟩ := priorityNum_ok idx
        ((jLookup fkvs "priority").getD (.obj [])) hprio
      obtain ⟨sl, hsl⟩ := statusLower_ok fkvs hstat
      refine ⟨{ id := (jLookup tkvs "key").getD (.str ("US-" ++ pad3 idx)),
                title := (jLookup fkvs "summary").getD (.str "Untitled"),
                description := ds,
                acceptanceCriteria :=
                  (if extract_acceptance_criteria ds = [] then
                     ["Implement " ++
                        pyStr ((jLookup fkvs "summary").getD (.str "Untitled")),
                      "Code passes all tests", "Documentation updated"]
                   else extract_acceptance_criteria ds),
                priority := pn,
                passes := ["done", "closed", "resolved", "completed"].contains sl,
                notes := "" }, ?_⟩
      unfold transformTicket
      simp only [pyGet, hf, hds, hpn, hsl]

/-- A list of well-shaped tickets is transformed without raising. -/
theorem transformTickets_wellShaped :
    ∀ (ts : List JVal) (start : Nat), ts.all wellShaped = true →
      ∃ stories, transformTickets start ts = .ok stories := by
  intro ts
  induction ts with
  | nil => exact fun start _ => ⟨[], rfl⟩
  | cons t rest ih =>
    intro start h
    rw [List.all_cons, Bool.and_eq_true] at h
    obtain ⟨ht, hrest⟩ := h
    obtain ⟨story, hstory⟩ := transformTicket_wellShaped start t ht
    obtain ⟨stories, hstories⟩ := ih (start + 1) hrest
    exact ⟨story :: stories, by simp [transformTickets, hstory, hstories]⟩

/-- Claim C5 (amended): missing fields are never fatal — any
well-shaped issue (every field possibly absent, `description` a dict
that joins cleanly, a string, or falsy, `priority` falsy or a dict
with string-or-absent `name`, `status` absent or a dict with
string-or-absent `name`) is transformed without raising, and so is any
list of such issues.  (Wrong-shaped values can still raise; see the
counterexample.) -/
theorem transform_tolerates_missing_fields :
    (∀ (idx : Nat) (t : JVal), wellShaped t = true →
      ∃ story, transformTicket idx t = .ok story)
    ∧ (∀ (tickets : List JVal) (pn : String) (b d : Option String),
        tickets.all wellShaped = true →
        ∃ prd, transform_to_prd_format tickets pn b d = .ok prd) := by
  constructor
  · exact transformTicket_wellShaped
  · intro tickets pn b d h
    obtain ⟨stories, hstories⟩ := transformTickets_wellShaped tickets 1 h
    refine ⟨{ project := pn,
              branchName :=
                (match b with
                 | some bb => if bb.isEmpty then defaultBranchName pn else bb
                 | none => defaultBranchName pn),
              description :=
                (match d with
                 | some dd => if dd.isEmpty then "JIRA tickets for project " ++ pn
                              else dd
                 | none => "JIRA tickets for project " ++ pn),
              userStories := stories }, ?_⟩
    simp [transform_to_prd_format, hstories]

/-- Counterexample to C5 as stated: a wrong-shaped `status` (a plain
string instead of an object) makes the transformation raise
(`AttributeError` on `.get`), so malformed data is not always absorbed
silently. -/
theorem transform_wrongshaped_status_counterexample :
    exceptIsOk (transform_to_prd_format
      [JVal.obj [("fields", JVal.obj [("description", JVal.str "d"),
        ("status", JVal.str "Done")])]]
      "P" none none) = false := rfl

/-- Witness for C5: the fully-empty issue `{}` — every consumed field
absent — is transformed successfully, alone and in a list. -/
theorem transform_tolerates_missing_fields_witness :
    (∃ story, transformTicket 1 (JVal.obj []) = .ok story)
    ∧ (∃ prd, transform_to_prd_format [JVal.obj []] "P" none none = .ok prd) :=
  ⟨transform_tolerates_missing_fields.1 1 (JVal.obj []) rfl,
   transform_tolerates_missing_fields.2 [JVal.obj []] "P" none none rfl⟩
